import Mathlib

/-!
Verification of the Sheriff CLI / plugin layer against its specification.

The TypeScript sources are shallowly embedded: pure functions become Lean
functions, JavaScript records become ordered association lists (key/value
pairs in declaration order, with assignment-overwrites-existing-key
semantics), thrown exceptions become an `Except` error channel, and
process-level effects (stderr output, exit status) become explicit effect
traces.  Collaborators that the code under analysis merely calls
(`init`, `getProjectData`, the two violation checkers, `JSON.parse`) are
function parameters, so every theorem quantifies over their behaviour.
-/

set_option autoImplicit false

namespace Sheriff

/-! ## JavaScript record primitives

A JavaScript object with string keys is modelled as a `List (String × V)`
in property declaration order.  Assigning to an existing key overwrites the
value in place; assigning a fresh key appends it. -/

/-- First value bound to key `k`, mirroring a JavaScript property read. -/
def lookupRecord {V : Type} : List (String × V) → String → Option V
  | [], _ => none
  | p :: r, k => if p.1 == k then some p.2 else lookupRecord r k

/-- JavaScript record assignment `r[k] = v`: overwrite the binding when the
key exists, append a fresh binding otherwise (records are only ever built
through this operation, so keys stay duplicate-free). -/
def recordSet {V : Type} : List (String × V) → String → V → List (String × V)
  | [], k, v => [(k, v)]
  | p :: r, k, v => if p.1 == k then (k, v) :: r else p :: recordSet r k v

/-- Keys of a record in order, mirroring `Object.keys`. -/
def recordKeys {V : Type} (r : List (String × V)) : List String :=
  r.map (fun p => p.1)

/-! ## Thrown JavaScript values

`error/user-error.ts` defines `UserError` (an `Error` carrying a stable
`code`) and fifteen subclasses.  A thrown value is either a `UserError`,
a plain `Error` (this includes built-in errors such as `TypeError`), or an
arbitrary non-`Error` value, kept as its string representation. -/

/-- A value thrown by the embedded code: a `UserError` with its stable code,
a plain `Error` (with `typeError` marking the built-in `TypeError` raised by
runtime coercion failures), or any other thrown value as `String(value)`. -/
inductive JsError : Type where
  | userError (code : String) (msg : String)
  | plainError (msg : String)
  | typeError (msg : String)
  | other (stringRep : String)
deriving DecidableEq, Repr

/-- Message printed by `handleErrorOutput` (handle-error.ts, lines 83-91):
`error.message` for `UserError` and `Error` instances, `String(error)`
otherwise. -/
def JsError.outputMessage : JsError → String
  | .userError _ m => m
  | .plainError m => m
  | .typeError m => m
  | .other s => s

/-- Whether the thrown value is an instance of `UserError`. -/
def JsError.isUserError : JsError → Bool
  | .userError _ _ => true
  | _ => false

/-- Stable code carried by a `UserError`, absent otherwise. -/
def JsError.code? : JsError → Option String
  | .userError c _ => some c
  | _ => none

/-- The closed set of stable error codes declared by `UserErrorCode` in
user-error.ts. -/
def validUserErrorCodes : List String :=
  ["SH-001", "SH-002", "SH-003", "SH-004", "SH-005", "SH-006", "SH-007",
   "SH-008", "SH-009", "SH-010", "SH-011", "SH-012", "SH-013", "SH-014",
   "SH-015"]

/-- `InvalidPathError` from user-error.ts. -/
def InvalidPathError (pathAlias path : String) : JsError :=
  .userError "SH-001"
    ("invalid path mapping detected: " ++ pathAlias ++ ": " ++ path ++
      ". Please verify that the path exists.")

/-- `NoDependencyRuleForTagError` from user-error.ts. -/
def NoDependencyRuleForTagError (tag : String) : JsError :=
  .userError "SH-002"
    ("No dependency rule for tag \x27" ++ tag ++ "\x27 found in sheriff.config.ts")

/-- `NoAssignedTagError` from user-error.ts. -/
def NoAssignedTagError (moduleDir : String) : JsError :=
  .userError "SH-003"
    ("No assigned Tag for \x27" ++ moduleDir ++ "\x27 in sheriff.config.ts")

/-- `TagWithoutValueError` from user-error.ts. -/
def TagWithoutValueError (path : String) : JsError :=
  .userError "SH-004"
    ("Tag configuration \x27/" ++ path ++ "\x27 in sheriff.config.ts has no value")

/-- `ExistingTagPlaceholderError` from user-error.ts. -/
def ExistingTagPlaceholderError (placeholder : String) : JsError :=
  .userError "SH-005"
    ("placeholder for value \"" ++ placeholder ++ "\" does already exist")

/-- `InvalidPlaceholderError` from user-error.ts. -/
def InvalidPlaceholderError (placeholder path : String) : JsError :=
  .userError "SH-006"
    ("cannot find a placeholder for \"" ++ placeholder ++
      "\" in tag configuration. Module: " ++ path)

/-- `MissingModulesWithoutAutoTaggingError` from user-error.ts. -/
def MissingModulesWithoutAutoTaggingError : JsError :=
  .userError "SH-007"
    "sheriff.config.ts must have either modules or autoTagging set to true"

/-- `TaggingAndModulesError` from user-error.ts. -/
def TaggingAndModulesError : JsError :=
  .userError "SH-008"
    "sheriff.config.ts contains both tagging and modules. Use only modules."

/-- `CollidingEncapsulationSettings` from user-error.ts. -/
def CollidingEncapsulationSettings : JsError :=
  .userError "SH-009"
    "sheriff.config.ts contains both encapsulatedFolderNameForBarrelLess and encapsulationPatternForBarrellLess. Use encapsulationPatternForBarrellLess."

/-- `TsExtendsResolutionError` from user-error.ts. -/
def TsExtendsResolutionError (tsConfigPath extendsPath : String) : JsError :=
  .userError "SH-010"
    ("Cannot resolve path " ++ extendsPath ++ " of \"extends\" property in " ++
      tsConfigPath ++ ". Please verify that the path exists.")

/-- `CollidingEntrySettings` from user-error.ts: the dedicated error for a
configuration declaring both `entryFile` and `entryPoints`. -/
def CollidingEntrySettings : JsError :=
  .userError "SH-011"
    "sheriff.config.ts contains both entryFile and entryPoints. Use only one of them."

/-- `NoEntryPointsFoundError` from user-error.ts: the dedicated error for a
configuration declaring no entry points. -/
def NoEntryPointsFoundError : JsError :=
  .userError "SH-012" "No entryPoints defined in sheriff.config.ts."

/-- `PluginNotFoundError` from user-error.ts. -/
def PluginNotFoundError (pluginName : String) : JsError :=
  .userError "SH-013"
    ("Plugin \x27" ++ pluginName ++
      "\x27 not found. Make sure to register the plugin in your sheriff.config.ts plugins array.")

/-- `PluginInvalidError` from user-error.ts. -/
def PluginInvalidError (details : String) : JsError :=
  .userError "SH-014"
    ("Invalid plugin configuration: " ++ details ++
      ". Plugins must have a \x27name\x27 property and an \x27execute\x27 method.")

/-- `PluginExecutionError` from user-error.ts (message shown for an `Error`
cause). -/
def PluginExecutionError (pluginName errorMessage : String) : JsError :=
  .userError "SH-015"
    ("Plugin \x27" ++ pluginName ++ "\x27 failed during execution: " ++ errorMessage)

/-! ## CLI error handling (`handle-error.ts`)

The wrapped thunk `fn` is modelled by its outcome: `Except.ok ()` when it
returns normally, `Except.error e` when it throws `e`.  The observable
behaviour of the wrapper is the ordered trace of CLI effects it performs. -/

/-- An observable CLI effect: a line on stderr, or ending the process with
the success (`endProcessOk`) or error (`endProcessError`) status. -/
inductive CliEffect : Type where
  | logError (msg : String)
  | endProcessOk
  | endProcessError
deriving DecidableEq, Repr

/-- `handleErrorOutput` (handle-error.ts, lines 83-91): writes the error
message (or string representation) to stderr. -/
def handleErrorOutput (e : JsError) : CliEffect :=
  .logError e.outputMessage

/-- `handleError` (handle-error.ts, lines 99-107): run `fn`; on normal return
end the process with the success status, on a thrown value print it and end
the process with the error status. -/
def handleError (fn : Except JsError Unit) : List CliEffect :=
  match fn with
  | .ok _ => [.endProcessOk]
  | .error e => [handleErrorOutput e, .endProcessError]

/-- `handleErrorAsync` (handle-error.ts, lines 115-123): the `async` variant;
an awaited rejection is the thrown value. -/
def handleErrorAsync (fn : Except JsError Unit) : List CliEffect :=
  match fn with
  | .ok _ => [.endProcessOk]
  | .error e => [handleErrorOutput e, .endProcessError]

/-! ## Entry resolution (`get-entry-from-cli-or-config.ts`) -/

/-- `ProjectEntry<TEntry>` from get-entry-from-cli-or-config.ts. -/
structure ProjectEntry (T : Type) where
  projectName : String
  entry : T
deriving DecidableEq, Repr

/-- `DEFAULT_PROJECT_NAME` from get-entry-from-cli-or-config.ts, line 12. -/
def DEFAULT_PROJECT_NAME : String := "default"

/-- A value that is either an entry-file string or an entry-points record,
the argument shape `string | Record<string, string>`. -/
inductive StringOrRecord : Type where
  | str (s : String)
  | record (ps : List (String × String))
deriving DecidableEq, Repr

/-- JavaScript truthiness of a `string | Record | undefined` value: records
are always truthy, a string is truthy iff non-empty, `undefined` is falsy. -/
def sorTruthy : Option StringOrRecord → Bool
  | none => false
  | some (.str s) => !(s == "")
  | some (.record _) => true

/-- JavaScript truthiness of a possibly-undefined string field. -/
def strTruthy : Option String → Bool
  | none => false
  | some s => !(s == "")

/-- The raw parsed `sheriff.config.ts` shape consumed by entry resolution:
`entryFile` and `entryPoints` are each present or absent as the user
declared them (`Configuration` keeps `entryPoints` optional). -/
structure SheriffConfigRaw : Type where
  entryFile : Option String
  entryPoints : Option (List (String × String))
deriving DecidableEq, Repr

/-- Ambient state entry resolution reads through the file-system
collaborator: the working directory, whether `sheriff.config.ts` exists,
and its parsed content when it does. -/
structure CliEnv : Type where
  cwd : String
  configExists : Bool
  config : SheriffConfigRaw
deriving DecidableEq, Repr

/-- Model of `fs.join` for the two-segment calls used here. -/
def joinFs (a b : String) : String := a ++ "/" ++ b

/-- `isEmptyRecord` (is-empty-record.ts): `Object.keys(arg)?.length === 0`.
The optional chaining sits after `Object.keys`, so an `undefined` argument
still reaches `Object.keys` and raises a `TypeError`. -/
def jsIsEmptyRecord (r : Option (List (String × String))) : Except JsError Bool :=
  match r with
  | none => .error (.typeError "Cannot convert undefined or null to object")
  | some ps => .ok (ps.length == 0)

/-- `processEntryFile` (get-entry-from-cli-or-config.ts, lines 77-104) with
`runInit = true`: a plain string becomes one entry named
`DEFAULT_PROJECT_NAME`, a record becomes one entry per pair via
`Object.entries`, each entry's project initialized from its own joined
path by the collaborator `ini` (`init(toFsPath(fs.join(fs.cwd(), entry)))`). -/
def processEntryFileInit {P : Type} (ini : String → P) (cwd : String) :
    StringOrRecord → List (ProjectEntry P)
  | .str s => [⟨DEFAULT_PROJECT_NAME, ini (joinFs cwd s)⟩]
  | .record ps => ps.map (fun p => ⟨p.1, ini (joinFs cwd p.2)⟩)

/-- `processEntryFile` with `runInit = false`: same shapes, but the entry
values are returned as the raw strings, without joining or initializing. -/
def processEntryFileRaw : StringOrRecord → List (ProjectEntry String)
  | .str s => [⟨DEFAULT_PROJECT_NAME, s⟩]
  | .record ps => ps.map (fun p => ⟨p.1, p.2⟩)

/-- Error message thrown at get-entry-from-cli-or-config.ts, lines 40-42. -/
def bothEntryOptionsMsg : String :=
  "Both entry file and entry points found in sheriff.config.ts. Please provide only one option"

/-- Error message thrown at get-entry-from-cli-or-config.ts, lines 65-67. -/
def noEntryOptionsMsg : String :=
  "No entry file or entry points found in sheriff.config.ts. Please provide the option via the CLI."

/-- Error message thrown at get-entry-from-cli-or-config.ts, lines 71-73. -/
def noCliEntryMsg : String :=
  "Please provide an entry file (e.g. main.ts) or entry points (e.g. \x7b projectName: \"main.ts\" \x7d)"

/-- The configuration-file path of `getEntryFromCliOrConfig`
(get-entry-from-cli-or-config.ts, lines 35-73), reached when no truthy CLI
argument was given: consult `sheriff.config.ts` or fail. `g` is the
applicable `processEntryFile` instantiation. -/
def getEntryNoArg {E : Type} (g : StringOrRecord → List E) (env : CliEnv) :
    Except JsError (List E) :=
  if env.configExists then
    if strTruthy env.config.entryFile then
      match jsIsEmptyRecord env.config.entryPoints with
      | .error e => .error e
      | .ok isEmp =>
        if !isEmp then .error (.plainError bothEntryOptionsMsg)
        else .ok (g (.str (env.config.entryFile.getD "")))
    else
      match env.config.entryPoints with
      | some ps =>
        if !(ps.length == 0) then .ok (g (.record ps))
        else .error (.plainError noEntryOptionsMsg)
      | none => .error (.plainError noEntryOptionsMsg)
  else .error (.plainError noCliEntryMsg)

/-- Control flow of `getEntryFromCliOrConfig`
(get-entry-from-cli-or-config.ts, lines 14-74): a truthy CLI argument is
processed directly, otherwise the configuration file decides. -/
def getEntryCore {E : Type} (g : StringOrRecord → List E) (env : CliEnv)
    (arg : Option StringOrRecord) : Except JsError (List E) :=
  match arg with
  | some v => if sorTruthy (some v) then .ok (g v) else getEntryNoArg g env
  | none => getEntryNoArg g env

/-- `getEntryFromCliOrConfig` with `runInit = true`: entries carry project
infos built by the collaborator `ini`. -/
def getEntryFromCliOrConfig {P : Type} (ini : String → P) (env : CliEnv)
    (arg : Option StringOrRecord) : Except JsError (List (ProjectEntry P)) :=
  getEntryCore (processEntryFileInit ini env.cwd) env arg

/-- `getEntryFromCliOrConfig` with `runInit = false`: entries carry the raw
entry-file strings. -/
def getEntryFromCliOrConfigRaw (env : CliEnv) (arg : Option StringOrRecord) :
    Except JsError (List (ProjectEntry String)) :=
  getEntryCore processEntryFileRaw env arg

/-! ## CLI dispatch (`main.ts`) -/

/-- A registered plugin as the dispatcher sees it: only its `name` is read
when matching a command (its `execute` body is an external effect). -/
structure SheriffPluginRef : Type where
  name : String
deriving DecidableEq, Repr

/-- `BUILTIN_COMMANDS` (main.ts, line 18). -/
def BUILTIN_COMMANDS : List String :=
  ["init", "verify", "list", "export", "version"]

/-- `isBuiltinCommand` (main.ts, lines 26-28). -/
def isBuiltinCommand : Option String → Bool
  | none => false
  | some cmd => BUILTIN_COMMANDS.contains cmd

/-- The dispatch decision made by `main`: which built-in command runs (with
its residual arguments), which plugin's `execute` is invoked, or that help
is displayed.  `switchFallthrough` is the silent exit of the `switch`
statement's (unreachable) default. -/
inductive MainAction : Type where
  | runBuiltinInit
  | runBuiltinVerify (args : List String)
  | runBuiltinList (args : List String)
  | runBuiltinExport (args : List String)
  | runBuiltinVersion
  | runPluginCommand (name : String) (args : List String)
  | showHelp
  | switchFallthrough
deriving DecidableEq, Repr

/-- The `switch (cmd)` statement of `main` (main.ts, lines 116-132). -/
def dispatchBuiltin (cmd : String) (args : List String) : MainAction :=
  if cmd == "init" then .runBuiltinInit
  else if cmd == "verify" then .runBuiltinVerify args
  else if cmd == "list" then .runBuiltinList args
  else if cmd == "export" then .runBuiltinExport args
  else if cmd == "version" then .runBuiltinVersion
  else .switchFallthrough

/-- `handlePluginOrHelp` (main.ts, lines 82-103): with no command show help;
otherwise execute the plugin whose `name` matches, or show help. -/
def handlePluginOrHelp (cmd : Option String) (args : List String)
    (plugins : List SheriffPluginRef) : MainAction :=
  match cmd with
  | none => .showHelp
  | some c =>
    match plugins.find? (fun p => p.name == c) with
    | some _ => .runPluginCommand c args
    | none => .showHelp

/-- `main` (main.ts, lines 111-139): destructure `argv` into `cmd` and
`args`; built-in commands are handled by the `switch` and the function
returns; anything else goes to plugin/help handling. -/
def main (argv : List String) (plugins : List SheriffPluginRef) : MainAction :=
  match argv with
  | [] => handlePluginOrHelp none [] plugins
  | cmd :: args =>
    if isBuiltinCommand (some cmd) then dispatchBuiltin cmd args
    else handlePluginOrHelp (some cmd) args plugins

/-! ## `parseStringOrRecord` (parse-string-or-record.ts)

`JSON.parse` is a language primitive, modelled as a function parameter
`jp : String → Option Json` (`none` = the parse throws). -/

/-- A JavaScript value produced by `JSON.parse`. -/
inductive Json : Type where
  | null
  | bool (b : Bool)
  | num (n : Int)
  | str (s : String)
  | arr (elems : List Json)
  | obj (fields : List (String × Json))

/-- `typeof parsed === \x27object\x27 && parsed !== null`: true for objects
and arrays, false for `null` and primitives. -/
def Json.isObjectNonNull : Json → Bool
  | .obj _ => true
  | .arr _ => true
  | _ => false

/-- Whether the value is a JSON object (not an array). -/
def Json.isObj : Json → Bool
  | .obj _ => true
  | _ => false

/-- Whether the value is a JSON array. -/
def Json.isArr : Json → Bool
  | .arr _ => true
  | _ => false

/-- Whether the value is a JSON string. -/
def Json.isStr : Json → Bool
  | .str _ => true
  | _ => false

/-- The string content of a JSON string (only used on values checked with
`isStr`). -/
def Json.strOf : Json → String
  | .str s => s
  | _ => ""

/-- `Object.values(parsed)` for the values reachable under the
`isObjectNonNull` guard. -/
def Json.values : Json → List Json
  | .obj fields => fields.map (fun p => p.2)
  | .arr elems => elems
  | _ => []

/-- The parsed value read back as a `Record<string, string>`: object fields
keep their keys, array elements get their index as key (only used on values
whose `values` are all strings). -/
def Json.asStringRecord : Json → List (String × String)
  | .obj fields => fields.map (fun p => (p.1, p.2.strOf))
  | .arr elems => elems.enum.map (fun p => (toString p.1, p.2.strOf))
  | _ => []

/-- One parse attempt of `parseStringOrRecord`: parse `s`, and keep the
result only if it is a non-null object whose values are all strings
(`Object.values(parsed).every(v => typeof v === \x27string\x27)`). -/
def tryParseRecord (jp : String → Option Json) (s : String) :
    Option (List (String × String)) :=
  match jp s with
  | some parsed =>
    if parsed.isObjectNonNull && (parsed.values.all Json.isStr) then
      some parsed.asStringRecord
    else none
  | none => none

/-- `parseStringOrRecord` (parse-string-or-record.ts, lines 9-57): trim the
input; when it is brace-delimited, first try `JSON.parse` directly, then
with every single quote replaced by a double quote; on any failure (parse
error, non-object, non-string values) return the original, untrimmed input.
All `throw` sites of the source are caught internally, so the embedding is
a total function. -/
def parseStringOrRecord (jp : String → Option Json) (input : String) :
    StringOrRecord :=
  if input.trim.startsWith "\x7b" && input.trim.endsWith "\x7d" then
    match tryParseRecord jp input.trim with
    | some r => .record r
    | none =>
      match tryParseRecord jp (input.trim.replace "\x27" "\"") with
      | some r => .record r
      | none => .str input
  else .str input

/-- A `JSON.parse` model that throws on every input (used as a concrete
collaborator by a witness). -/
def jpNone : String → Option Json := fun _ => none

/-! ## Plugin-API verification (`create-plugin-api.ts`)

`traverseFileInfo`, `hasEncapsulationViolations` and
`checkForDependencyRuleViolation` are collaborators of the loop in
`verifyForPlugin`; they live outside the analysed sources and are modelled
from the spec, parameterized over the per-import verdicts that depend on
the project's tags and rules. -/

/-- A file of one project's import graph as the verification loop consumes
it: its absolute path and its raw import specifiers in source order. -/
structure ModelledFileInfo : Type where
  path : String
  rawImports : List String
deriving DecidableEq, Repr

/-- `DependencyRuleViolation` as consumed by the loop: source tag, target
tags and the raw import string of the offending statement. -/
structure DependencyRuleViolation : Type where
  fromTag : String
  toTags : List String
  rawImport : String
deriving DecidableEq, Repr

/-- `DependencyViolationInfo` (plugin-api.ts, lines 155-162). -/
structure DependencyViolationInfo : Type where
  fromTag : String
  toTags : List String
  rawImport : String
deriving DecidableEq, Repr

/-- `FileViolations` (plugin-api.ts, lines 167-172). -/
structure FileViolations : Type where
  encapsulationViolations : List String
  dependencyRuleViolations : List DependencyViolationInfo
deriving DecidableEq, Repr

/-- Modelled from the spec: one entry point's `projectInfo` as
`verifyForPlugin` consumes it.  `files` is the finite, duplicate-free
sequence that `traverseFileInfo` (traverse-file-info.ts, not among the
analysed sources) yields from the entry's graph; `encVerdict path imp`
says whether raw import `imp` of the file at `path` reaches past another
module's barrel; `depVerdict path imp` gives `(fromTag, toTags)` when
that import violates the dependency rules.  Both verdicts are private to this
entry point, as each entry point carries its own `ProjectInfo`. -/
structure PluginProjectInfo : Type where
  files : List ModelledFileInfo
  encVerdict : String → String → Bool
  depVerdict : String → String → Option (String × List String)

/-- Modelled from the spec: `hasEncapsulationViolations`
(has-encapsulation-violations.ts, not among the analysed sources) returns a
record keyed by the offending raw import strings ("the set of encapsulation
violations (raw import strings)"); the record is built by one JavaScript
assignment per offending import statement. -/
def hasEncapsulationViolations (pi : PluginProjectInfo)
    (f : ModelledFileInfo) : List (String × Unit) :=
  f.rawImports.foldl
    (fun r imp => if pi.encVerdict f.path imp then recordSet r imp () else r)
    []

/-- Modelled from the spec: `checkForDependencyRuleViolation`
(check-for-dependency-rule-violation.ts, not among the analysed sources)
reports one violation per offending raw import statement, in source order,
not deduplicated. -/
def checkForDependencyRuleViolation (pi : PluginProjectInfo)
    (f : ModelledFileInfo) : List DependencyRuleViolation :=
  f.rawImports.filterMap
    (fun imp =>
      (pi.depVerdict f.path imp).map
        (fun v => ⟨v.1, v.2, imp⟩))

/-- The `encapsulations` binding of the loop (create-plugin-api.ts,
lines 39-41): `Object.keys(hasEncapsulationViolations(path, projectInfo))`. -/
def encapsulationKeys (pi : PluginProjectInfo) (f : ModelledFileInfo) :
    List String :=
  recordKeys (hasEncapsulationViolations pi f)

/-- The `depViolationInfos` mapping of the loop (create-plugin-api.ts,
lines 55-60): copy `fromTag`, `toTags`, `rawImport` of each violation. -/
def depViolationInfos (pi : PluginProjectInfo) (f : ModelledFileInfo) :
    List DependencyViolationInfo :=
  (checkForDependencyRuleViolation pi f).map
    (fun v => ⟨v.fromTag, v.toTags, v.rawImport⟩)

/-- The guard of the loop body (create-plugin-api.ts, line 48):
`encapsulations.length > 0 || dependencyRuleViolations.length > 0`. -/
def fileHasViolations (pi : PluginProjectInfo) (f : ModelledFileInfo) : Bool :=
  decide (0 < (encapsulationKeys pi f).length) ||
    decide (0 < (checkForDependencyRuleViolation pi f).length)

/-- `VerificationResult` (plugin-api.ts, lines 179-190), with the
`violations` record in JavaScript key order. -/
structure VerificationResult : Type where
  success : Bool
  encapsulationViolationCount : Nat
  dependencyRuleViolationCount : Nat
  filesWithViolationsCount : Nat
  violations : List (String × FileViolations)

/-- The mutable accumulation state of `verifyForPlugin`
(create-plugin-api.ts, lines 30-33). -/
structure VerifyState : Type where
  encapsulationViolationCount : Nat
  dependencyRuleViolationCount : Nat
  filesWithViolationsCount : Nat
  violations : List (String × FileViolations)

/-- One iteration of the inner loop of `verifyForPlugin`
(create-plugin-api.ts, lines 36-67).  `relPath` models
`fs.relativeTo(fs.cwd(), fileInfo.path)`. -/
def verifyStepFile (relPath : String → String) (pi : PluginProjectInfo)
    (st : VerifyState) (f : ModelledFileInfo) : VerifyState :=
  if fileHasViolations pi f then
    { encapsulationViolationCount :=
        st.encapsulationViolationCount + (encapsulationKeys pi f).length
      dependencyRuleViolationCount :=
        st.dependencyRuleViolationCount +
          (checkForDependencyRuleViolation pi f).length
      filesWithViolationsCount := st.filesWithViolationsCount + 1
      violations :=
        recordSet st.violations (relPath f.path)
          ⟨encapsulationKeys pi f, depViolationInfos pi f⟩ }
  else st

/-- The inner loop of `verifyForPlugin` over one entry point's traversal. -/
def verifyStepEntry (relPath : String → String) (st : VerifyState)
    (pi : PluginProjectInfo) : VerifyState :=
  pi.files.foldl (verifyStepFile relPath pi) st

/-- `verifyForPlugin` (create-plugin-api.ts, lines 26-80), applied to the
project entries delivered by `getEntriesFromCliOrConfig`: accumulate both
violation kinds over every entry point's traversal, then report success
iff both totals are zero. -/
def verifyForPlugin (relPath : String → String)
    (projectEntries : List PluginProjectInfo) : VerificationResult :=
  let st := projectEntries.foldl (verifyStepEntry relPath) ⟨0, 0, 0, []⟩
  { success :=
      st.encapsulationViolationCount == 0 &&
        st.dependencyRuleViolationCount == 0
    encapsulationViolationCount := st.encapsulationViolationCount
    dependencyRuleViolationCount := st.dependencyRuleViolationCount
    filesWithViolationsCount := st.filesWithViolationsCount
    violations := st.violations }

/-- Total number of encapsulation violations of all files of all entry
points, computed directly from the checkers (the specification-side sum). -/
def totalEncapsulationViolations (entries : List PluginProjectInfo) : Nat :=
  (entries.map
    (fun pi => (pi.files.map (fun f => (encapsulationKeys pi f).length)).sum)).sum

/-- Total number of dependency-rule violations of all files of all entry
points, computed directly from the checkers (the specification-side sum). -/
def totalDependencyRuleViolations (entries : List PluginProjectInfo) : Nat :=
  (entries.map
    (fun pi =>
      (pi.files.map
        (fun f => (checkForDependencyRuleViolation pi f).length)).sum)).sum

/-! ## `getProjectData` for plugins (`create-plugin-api.ts`, lines 89-105) -/

/-- Modelled from the spec: `getEntriesFromCliOrConfig`
(get-entries-from-cli-or-config.ts, not among the analysed sources) is the
entry resolution the plugin API calls with `runInit = false`; it resolves
the optional CLI argument or the configuration's `entryFile`/`entryPoints`
exactly as the in-source `getEntryFromCliOrConfig` does. -/
def getEntriesFromCliOrConfigRaw (env : CliEnv) (arg : Option StringOrRecord) :
    Except JsError (List (ProjectEntry String)) :=
  getEntryFromCliOrConfigRaw env arg

/-- `getProjectDataForPlugin` (create-plugin-api.ts, lines 89-105): resolve
the entries without initializing, take `projectEntries[0]` (reading a field
of `undefined` raises a `TypeError` when the list is empty), join its entry
file onto the working directory and hand it, with the entry's project name
and the caller's options, to the collaborator `projectData`. -/
def getProjectDataForPlugin {Opts R : Type}
    (projectData : String → String → Opts → R) (env : CliEnv)
    (arg : Option StringOrRecord) (options : Opts) : Except JsError R :=
  match getEntriesFromCliOrConfigRaw env arg with
  | .error e => .error e
  | .ok projectEntries =>
    match projectEntries with
    | [] =>
      .error (.typeError "Cannot read properties of undefined (reading \x27entryFile\x27)")
    | entry :: _ =>
      .ok (projectData (joinFs env.cwd entry.entry) entry.projectName options)

/-- The violation map built by one entry point's loop iterations, starting
from an accumulator record: the per-file update of `verifyForPlugin`
isolated from the counters. -/
def violationsFold (relPath : String → String) (pi : PluginProjectInfo) :
    List (String × FileViolations) → List ModelledFileInfo →
      List (String × FileViolations)
  | r, [] => r
  | r, f :: fs =>
    violationsFold relPath pi
      (if fileHasViolations pi f then
        recordSet r (relPath f.path)
          ⟨encapsulationKeys pi f, depViolationInfos pi f⟩
      else r) fs

/-- The violation map built by the whole run over a list of entry points. -/
def entriesViolationsFold (relPath : String → String) :
    List (String × FileViolations) → List PluginProjectInfo →
      List (String × FileViolations)
  | r, [] => r
  | r, pi :: rest =>
    entriesViolationsFold relPath (violationsFold relPath pi r pi.files) rest

/-- Number of encapsulation violations the checkers assign to one entry
point's files. -/
def entryEncSum (pi : PluginProjectInfo) : Nat :=
  (pi.files.map (fun f => (encapsulationKeys pi f).length)).sum

/-- Number of dependency-rule violations the checkers assign to one entry
point's files. -/
def entryDepSum (pi : PluginProjectInfo) : Nat :=
  (pi.files.map (fun f => (checkForDependencyRuleViolation pi f).length)).sum

/-! ## Concrete environments used by closed theorems -/

/-- The single file of the C5 witness project: two identical offending
deep imports and one rule-violating import. -/
def piWitnessFile : ModelledFileInfo :=
  ⟨"src/a.ts", ["./b/internal", "./b/internal", "lodash"]⟩

/-- The C5 witness project: `./b/internal` violates encapsulation, `lodash`
violates the dependency rules. -/
def piWitness : PluginProjectInfo :=
  ⟨[piWitnessFile], fun _ imp => imp == "./b/internal",
    fun _ imp => if imp == "lodash" then some ("a", ["b"]) else none⟩

/-- First entry point of the C2 counterexample: it reaches
`src/shared.ts`, where `impA` violates encapsulation. -/
def cexE1 : PluginProjectInfo :=
  ⟨[⟨"src/shared.ts", ["impA"]⟩], fun _ imp => imp == "impA", fun _ _ => none⟩

/-- Second entry point of the C2 counterexample: it reaches the same
relative path `src/shared.ts`, where `impB` violates encapsulation. -/
def cexE2 : PluginProjectInfo :=
  ⟨[⟨"src/shared.ts", ["impB"]⟩], fun _ imp => imp == "impB", fun _ _ => none⟩

/-- First entry point of the C2 witness: one file under `a/`. -/
def disjE1 : PluginProjectInfo :=
  ⟨[⟨"a/x.ts", ["iA"]⟩], fun _ _ => true, fun _ _ => none⟩

/-- Second entry point of the C2 witness: one file under `b/`. -/
def disjE2 : PluginProjectInfo :=
  ⟨[⟨"b/y.ts", ["iB"]⟩], fun _ _ => true, fun _ _ => none⟩

/-- A `sheriff.config.ts` declaring both `entryFile` and a non-empty
`entryPoints`. -/
def envBothEntries : CliEnv :=
  ⟨"/project", true, ⟨some "src/main.ts", some [("app", "src/app/main.ts")]⟩⟩

/-- A `sheriff.config.ts` declaring neither `entryFile` nor `entryPoints`. -/
def envNoEntries : CliEnv :=
  ⟨"/project", true, ⟨none, none⟩⟩

/-- A `sheriff.config.ts` declaring only `entryFile`, with no `entryPoints`
property at all. -/
def envFileOnly : CliEnv :=
  ⟨"/project", true, ⟨some "src/main.ts", none⟩⟩

/-- A `sheriff.config.ts` declaring `entryFile` together with an (empty)
`entryPoints` record. -/
def envFileWithEmptyPoints : CliEnv :=
  ⟨"/project", true, ⟨some "src/main.ts", some []⟩⟩

/-- A `sheriff.config.ts` declaring two entry points and no entry file. -/
def envTwoPoints : CliEnv :=
  ⟨"/w", true, ⟨none, some [("a", "pa"), ("b", "pb")]⟩⟩

/-! ## Theorems -/

/-- **C7.** For every thunk run under `handleError` (and every async thunk
under `handleErrorAsync`): normal completion ends the process with the
success status, and any thrown value makes the run abort immediately — the
error's message is written to stderr and the process is ended with the
error status, with nothing after it in the effect trace. -/
theorem handleError_spec (fn : Except JsError Unit) :
    (fn = .ok () →
      handleError fn = [.endProcessOk] ∧
        handleErrorAsync fn = [.endProcessOk]) ∧
    (∀ e, fn = .error e →
      handleError fn = [.logError e.outputMessage, .endProcessError] ∧
        handleErrorAsync fn = [.logError e.outputMessage, .endProcessError]) := by
  constructor
  · rintro rfl
    exact ⟨rfl, rfl⟩
  · rintro e rfl
    exact ⟨rfl, rfl⟩

/-- Witness for C7: a completing thunk and a throwing thunk, evaluated. -/
theorem handleError_spec_witness :
    handleError (.ok ()) = [.endProcessOk] ∧
      handleError (.error (.plainError "nix geht")) =
        [.logError "nix geht", .endProcessError] :=
  ⟨((handleError_spec (.ok ())).1 rfl).1,
    ((handleError_spec (.error (.plainError "nix geht"))).2
      (.plainError "nix geht") rfl).1⟩

/-- **C8.** If the first CLI argument is a built-in command, `main`
dispatches only the corresponding built-in action: the result is the
built-in dispatch, it is never a plugin execution, and it is unchanged by
the registered plugin list — even one containing a plugin of that name. -/
theorem main_builtin_precedence (cmd : String) (args : List String)
    (plugins : List SheriffPluginRef) (h : cmd ∈ BUILTIN_COMMANDS) :
    main (cmd :: args) plugins = dispatchBuiltin cmd args ∧
    (∀ n a, main (cmd :: args) plugins ≠ .runPluginCommand n a) ∧
    (∀ plugins2, main (cmd :: args) plugins = main (cmd :: args) plugins2) := by
  fin_cases h <;>
    exact ⟨rfl, fun n a hca => by simp [main, isBuiltinCommand,
      BUILTIN_COMMANDS, dispatchBuiltin] at hca, fun _ => rfl⟩

/-- Witness for C8: `verify` is built in, and even with a registered plugin
named `verify` the dispatch is not a plugin execution. -/
theorem main_builtin_precedence_witness :
    "verify" ∈ BUILTIN_COMMANDS ∧
      main ["verify", "src/main.ts"] [⟨"verify"⟩] ≠
        MainAction.runPluginCommand "verify" ["src/main.ts"] :=
  ⟨by decide,
    (main_builtin_precedence "verify" ["src/main.ts"] [⟨"verify"⟩]
      (by decide)).2.1 "verify" ["src/main.ts"]⟩

/-- **C3** (code bug, evaluated at the failing input). The claim's positive
half holds of the error inventory: every `UserError` class of user-error.ts
carries its documented stable code whatever its message parameters, and
those codes are exactly `SH-001` through `SH-015`.  But the entry-validation
path of `getEntryFromCliOrConfig` throws plain `Error`s without any stable
code, although the dedicated `UserError` classes `CollidingEntrySettings`
(SH-011) and `NoEntryPointsFoundError` (SH-012) exist for exactly these
conditions: with both `entryFile` and non-empty `entryPoints` declared the
thrown value is a code-less plain error, and likewise when neither is
declared. -/
theorem entry_conflict_error_lacks_code :
    (∀ a p, (InvalidPathError a p).code? = some "SH-001") ∧
    (∀ t, (NoDependencyRuleForTagError t).code? = some "SH-002") ∧
    (∀ d, (NoAssignedTagError d).code? = some "SH-003") ∧
    (∀ p, (TagWithoutValueError p).code? = some "SH-004") ∧
    (∀ p, (ExistingTagPlaceholderError p).code? = some "SH-005") ∧
    (∀ p q, (InvalidPlaceholderError p q).code? = some "SH-006") ∧
    MissingModulesWithoutAutoTaggingError.code? = some "SH-007" ∧
    TaggingAndModulesError.code? = some "SH-008" ∧
    CollidingEncapsulationSettings.code? = some "SH-009" ∧
    (∀ t e, (TsExtendsResolutionError t e).code? = some "SH-010") ∧
    CollidingEntrySettings.code? = some "SH-011" ∧
    NoEntryPointsFoundError.code? = some "SH-012" ∧
    (∀ n, (PluginNotFoundError n).code? = some "SH-013") ∧
    (∀ d, (PluginInvalidError d).code? = some "SH-014") ∧
    (∀ n m, (PluginExecutionError n m).code? = some "SH-015") ∧
    validUserErrorCodes =
      ["SH-001", "SH-002", "SH-003", "SH-004", "SH-005", "SH-006", "SH-007",
       "SH-008", "SH-009", "SH-010", "SH-011", "SH-012", "SH-013", "SH-014",
       "SH-015"] ∧
    "SH-011" ∈ validUserErrorCodes ∧
    "SH-012" ∈ validUserErrorCodes ∧
    getEntryFromCliOrConfigRaw envBothEntries none =
      .error (.plainError bothEntryOptionsMsg) ∧
    (JsError.plainError bothEntryOptionsMsg).isUserError = false ∧
    (JsError.plainError bothEntryOptionsMsg).code? = none ∧
    CollidingEntrySettings.isUserError = true ∧
    getEntryFromCliOrConfigRaw envNoEntries none =
      .error (.plainError noEntryOptionsMsg) ∧
    (JsError.plainError noEntryOptionsMsg).isUserError = false ∧
    (JsError.plainError noEntryOptionsMsg).code? = none ∧
    NoEntryPointsFoundError.isUserError = true := by
  refine ⟨fun _ _ => rfl, fun _ => rfl, fun _ => rfl, fun _ => rfl,
    fun _ => rfl, fun _ _ => rfl, rfl, rfl, rfl, fun _ _ => rfl, rfl, rfl,
    fun _ => rfl, fun _ => rfl, fun _ _ => rfl, rfl, ?_, ?_, rfl, rfl, rfl,
    rfl, rfl, rfl, rfl, rfl⟩
  · decide
  · decide

/-- **C4** (code bug, evaluated at the failing input). With a configuration
declaring only `entryFile` (no `entryPoints` property), entry resolution
does not return the entry-file entries: `isEmptyRecord` applies
`Object.keys` to `undefined` and a `TypeError` escapes.  With an explicit
empty `entryPoints` record alongside the same `entryFile`, the claimed
behaviour is observed. -/
theorem entryFile_without_entryPoints_typeError :
    getEntryFromCliOrConfigRaw envFileOnly none =
      .error (.typeError "Cannot convert undefined or null to object") ∧
    (∀ entries, getEntryFromCliOrConfigRaw envFileOnly none ≠ .ok entries) ∧
    getEntryFromCliOrConfigRaw envFileWithEmptyPoints none =
      .ok [⟨DEFAULT_PROJECT_NAME, "src/main.ts"⟩] := by
  refine ⟨rfl, ?_, rfl⟩
  intro entries h
  rw [show getEntryFromCliOrConfigRaw envFileOnly none =
    .error (.typeError "Cannot convert undefined or null to object") from rfl] at h
  exact Except.noConfusion h

/-- **C6.** With a configured entry-points record of `N` pairs (and no entry
file), entry resolution returns exactly `N` entries, one per pair in
declaration order, each initialized from its own joined path; with an
entry-file string it returns exactly one entry named `default`. -/
theorem entry_resolution_shape {P : Type} (ini : String → P) (env : CliEnv)
    (ps : List (String × String))
    (hc : env.configExists = true)
    (hf : strTruthy env.config.entryFile = false)
    (hp : env.config.entryPoints = some ps)
    (hne : ps ≠ []) :
    getEntryFromCliOrConfig ini env none =
      .ok (ps.map (fun p => ⟨p.1, ini (joinFs env.cwd p.2)⟩)) ∧
    (ps.map (fun p => (⟨p.1, ini (joinFs env.cwd p.2)⟩ : ProjectEntry P))).length
      = ps.length ∧
    (∀ s, (s == "") = false →
      getEntryFromCliOrConfig ini env (some (.str s)) =
        .ok [⟨DEFAULT_PROJECT_NAME, ini (joinFs env.cwd s)⟩]) := by
  refine ⟨?_, by simp, ?_⟩
  · have hlen : (ps.length == 0) = false := by
      cases ps with
      | nil => exact absurd rfl hne
      | cons a l => rfl
    simp [getEntryFromCliOrConfig, getEntryCore, getEntryNoArg, hc, hf, hp,
      hlen, processEntryFileInit]
  · intro s hs
    simp [getEntryFromCliOrConfig, getEntryCore, sorTruthy, hs,
      processEntryFileInit]

/-- Witness for C6: two entry points resolve to two entries in order; a
plain string resolves to one `default` entry. -/
theorem entry_resolution_shape_witness :
    envTwoPoints.configExists = true ∧
    strTruthy envTwoPoints.config.entryFile = false ∧
    envTwoPoints.config.entryPoints = some [("a", "pa"), ("b", "pb")] ∧
    ([("a", "pa"), ("b", "pb")] : List (String × String)) ≠ [] ∧
    getEntryFromCliOrConfig id envTwoPoints none =
      .ok [⟨"a", "/w/pa"⟩, ⟨"b", "/w/pb"⟩] ∧
    getEntryFromCliOrConfig id envTwoPoints (some (.str "src/main.ts")) =
      .ok [⟨DEFAULT_PROJECT_NAME, "/w/src/main.ts"⟩] := by
  have h := entry_resolution_shape id envTwoPoints [("a", "pa"), ("b", "pb")]
    rfl rfl rfl (by decide)
  exact ⟨rfl, rfl, rfl, by decide, h.1, h.2.2 "src/main.ts" rfl⟩

/-- **C10** (spec-modelled entry listing). When multiple entry points are
configured and no entry-file argument is passed, the plugin API's
`getProjectData` hands only the first configured entry point to the
project-data computation, whatever the remaining entry points are. -/
theorem getProjectData_first_entry_only {Opts R : Type}
    (projectData : String → String → Opts → R) (env : CliEnv) (options : Opts)
    (p : String × String) (rest : List (String × String))
    (hc : env.configExists = true)
    (hf : strTruthy env.config.entryFile = false)
    (hp : env.config.entryPoints = some (p :: rest)) :
    getProjectDataForPlugin projectData env none options =
      .ok (projectData (joinFs env.cwd p.2) p.1 options) ∧
    (∀ rest2,
      getProjectDataForPlugin projectData
        { env with config := { env.config with entryPoints := some (p :: rest2) } }
        none options =
      .ok (projectData (joinFs env.cwd p.2) p.1 options)) := by
  constructor
  · simp [getProjectDataForPlugin, getEntriesFromCliOrConfigRaw,
      getEntryFromCliOrConfigRaw, getEntryCore, getEntryNoArg, hc, hf, hp,
      processEntryFileRaw]
  · intro rest2
    simp [getProjectDataForPlugin, getEntriesFromCliOrConfigRaw,
      getEntryFromCliOrConfigRaw, getEntryCore, getEntryNoArg, hc, hf,
      processEntryFileRaw]

/-- Witness for C10: with two configured entry points, only the first is
passed on, and replacing the second leaves the result unchanged. -/
theorem getProjectData_first_entry_only_witness :
    envTwoPoints.configExists = true ∧
    getProjectDataForPlugin (fun path name (_ : Unit) => (path, name))
      envTwoPoints none () = .ok ("/w/pa", "a") := by
  have h := getProjectData_first_entry_only
    (fun path name (_ : Unit) => (path, name)) envTwoPoints () ("a", "pa")
    [("b", "pb")] rfl rfl rfl
  exact ⟨rfl, h.1⟩

/-! ### Record lookup lemmas -/

/-- Reading back the key just assigned yields the assigned value. -/
theorem lookupRecord_recordSet_self {V : Type} (r : List (String × V))
    (k : String) (v : V) : lookupRecord (recordSet r k v) k = some v := by
  induction r with
  | nil => simp [recordSet, lookupRecord]
  | cons p r ih =>
    by_cases hp : p.1 = k
    · simp [recordSet, lookupRecord, hp]
    · simp [recordSet, lookupRecord, hp, ih]

/-- An assignment to a different key leaves a lookup unchanged. -/
theorem lookupRecord_recordSet_ne {V : Type} (r : List (String × V))
    (k k2 : String) (v : V) (h : k ≠ k2) :
    lookupRecord (recordSet r k2 v) k = lookupRecord r k := by
  have h2 : k2 ≠ k := Ne.symm h
  induction r with
  | nil => simp [recordSet, lookupRecord, h2]
  | cons p r ih =>
    by_cases hp : p.1 = k2
    · simp [recordSet, lookupRecord, hp, h2]
    · simp [recordSet, lookupRecord, hp, ih]

/-! ### Loop accumulation lemmas -/

/-- A file without violations contributes nothing to either count. -/
theorem fileHasViolations_false_lengths (pi : PluginProjectInfo)
    (f : ModelledFileInfo) (h : fileHasViolations pi f = false) :
    (encapsulationKeys pi f).length = 0 ∧
      (checkForDependencyRuleViolation pi f).length = 0 := by
  unfold fileHasViolations at h
  simp only [Bool.or_eq_false_iff, decide_eq_false_iff_not, Nat.not_lt,
    Nat.le_zero] at h
  exact h

/-- Per-file encapsulation-count accumulation. -/
theorem verifyStepFile_enc (relPath : String → String)
    (pi : PluginProjectInfo) (st : VerifyState) (f : ModelledFileInfo) :
    (verifyStepFile relPath pi st f).encapsulationViolationCount =
      st.encapsulationViolationCount + (encapsulationKeys pi f).length := by
  unfold verifyStepFile
  split
  · rfl
  · next h =>
    have := fileHasViolations_false_lengths pi f (by simpa using h)
    omega

/-- Per-file dependency-count accumulation. -/
theorem verifyStepFile_dep (relPath : String → String)
    (pi : PluginProjectInfo) (st : VerifyState) (f : ModelledFileInfo) :
    (verifyStepFile relPath pi st f).dependencyRuleViolationCount =
      st.dependencyRuleViolationCount +
        (checkForDependencyRuleViolation pi f).length := by
  unfold verifyStepFile
  split
  · rfl
  · next h =>
    have := fileHasViolations_false_lengths pi f (by simpa using h)
    omega

/-- Per-file violation-map accumulation. -/
theorem verifyStepFile_violations (relPath : String → String)
    (pi : PluginProjectInfo) (st : VerifyState) (f : ModelledFileInfo) :
    (verifyStepFile relPath pi st f).violations =
      (if fileHasViolations pi f then
        recordSet st.violations (relPath f.path)
          ⟨encapsulationKeys pi f, depViolationInfos pi f⟩
      else st.violations) := by
  unfold verifyStepFile
  split <;> simp_all

/-- Encapsulation count of one entry point's inner loop. -/
theorem foldl_stepFile_enc (relPath : String → String)
    (pi : PluginProjectInfo) :
    ∀ (fs : List ModelledFileInfo) (st : VerifyState),
      (fs.foldl (verifyStepFile relPath pi) st).encapsulationViolationCount =
        st.encapsulationViolationCount +
          (fs.map (fun f => (encapsulationKeys pi f).length)).sum := by
  intro fs
  induction fs with
  | nil => intro st; simp
  | cons f fs ih =>
    intro st
    simp only [List.foldl_cons, List.map_cons, List.sum_cons]
    rw [ih, verifyStepFile_enc]
    omega

/-- Dependency count of one entry point's inner loop. -/
theorem foldl_stepFile_dep (relPath : String → String)
    (pi : PluginProjectInfo) :
    ∀ (fs : List ModelledFileInfo) (st : VerifyState),
      (fs.foldl (verifyStepFile relPath pi) st).dependencyRuleViolationCount =
        st.dependencyRuleViolationCount +
          (fs.map
            (fun f => (checkForDependencyRuleViolation pi f).length)).sum := by
  intro fs
  induction fs with
  | nil => intro st; simp
  | cons f fs ih =>
    intro st
    simp only [List.foldl_cons, List.map_cons, List.sum_cons]
    rw [ih, verifyStepFile_dep]
    omega

/-- Violation map of one entry point's inner loop. -/
theorem foldl_stepFile_violations (relPath : String → String)
    (pi : PluginProjectInfo) :
    ∀ (fs : List ModelledFileInfo) (st : VerifyState),
      (fs.foldl (verifyStepFile relPath pi) st).violations =
        violationsFold relPath pi st.violations fs := by
  intro fs
  induction fs with
  | nil => intro st; simp [violationsFold]
  | cons f fs ih =>
    intro st
    simp only [List.foldl_cons, violationsFold]
    rw [ih, verifyStepFile_violations]

/-- Encapsulation count of the whole run. -/
theorem foldl_entries_enc (relPath : String → String) :
    ∀ (entries : List PluginProjectInfo) (st : VerifyState),
      (entries.foldl (verifyStepEntry relPath) st).encapsulationViolationCount
        = st.encapsulationViolationCount +
            totalEncapsulationViolations entries := by
  intro entries
  induction entries with
  | nil => intro st; simp [totalEncapsulationViolations]
  | cons pi rest ih =>
    intro st
    simp only [List.foldl_cons, totalEncapsulationViolations, List.map_cons,
      List.sum_cons]
    rw [ih]
    unfold verifyStepEntry
    rw [foldl_stepFile_enc]
    simp [totalEncapsulationViolations]
    omega

/-- Dependency count of the whole run. -/
theorem foldl_entries_dep (relPath : String → String) :
    ∀ (entries : List PluginProjectInfo) (st : VerifyState),
      (entries.foldl (verifyStepEntry relPath) st).dependencyRuleViolationCount
        = st.dependencyRuleViolationCount +
            totalDependencyRuleViolations entries := by
  intro entries
  induction entries with
  | nil => intro st; simp [totalDependencyRuleViolations]
  | cons pi rest ih =>
    intro st
    simp only [List.foldl_cons, totalDependencyRuleViolations, List.map_cons,
      List.sum_cons]
    rw [ih]
    unfold verifyStepEntry
    rw [foldl_stepFile_dep]
    simp [totalDependencyRuleViolations]
    omega

/-- Violation map of the whole run. -/
theorem foldl_entries_violations (relPath : String → String) :
    ∀ (entries : List PluginProjectInfo) (st : VerifyState),
      (entries.foldl (verifyStepEntry relPath) st).violations =
        entriesViolationsFold relPath st.violations entries := by
  intro entries
  induction entries with
  | nil => intro st; simp [entriesViolationsFold]
  | cons pi rest ih =>
    intro st
    simp only [List.foldl_cons, entriesViolationsFold]
    rw [ih]
    unfold verifyStepEntry
    rw [foldl_stepFile_violations]

/-- The final violation map of `verifyForPlugin`, as a fold of per-file
record assignments. -/
theorem verifyForPlugin_violations (relPath : String → String)
    (entries : List PluginProjectInfo) :
    (verifyForPlugin relPath entries).violations =
      entriesViolationsFold relPath [] entries := by
  unfold verifyForPlugin
  exact foldl_entries_violations relPath entries ⟨0, 0, 0, []⟩

/-- **C1.** The counts reported by `verifyForPlugin` are the checker-side
totals over every entry point and file, and `success` is `true` exactly
when both the total encapsulation-violation count and the total
dependency-rule-violation count are zero. -/
theorem verifyForPlugin_success_iff (relPath : String → String)
    (entries : List PluginProjectInfo) :
    (verifyForPlugin relPath entries).encapsulationViolationCount =
      totalEncapsulationViolations entries ∧
    (verifyForPlugin relPath entries).dependencyRuleViolationCount =
      totalDependencyRuleViolations entries ∧
    ((verifyForPlugin relPath entries).success = true ↔
      totalEncapsulationViolations entries = 0 ∧
        totalDependencyRuleViolations entries = 0) := by
  refine ⟨(foldl_entries_enc relPath entries ⟨0, 0, 0, []⟩).trans
      (Nat.zero_add _),
    (foldl_entries_dep relPath entries ⟨0, 0, 0, []⟩).trans (Nat.zero_add _),
    ?_⟩
  show ((entries.foldl (verifyStepEntry relPath)
        ⟨0, 0, 0, []⟩).encapsulationViolationCount == 0 &&
      (entries.foldl (verifyStepEntry relPath)
        ⟨0, 0, 0, []⟩).dependencyRuleViolationCount == 0) = true ↔ _
  rw [foldl_entries_enc relPath entries ⟨0, 0, 0, []⟩,
    foldl_entries_dep relPath entries ⟨0, 0, 0, []⟩]
  simp

/-- A key outside an entry point's relative paths is untouched by its
loop. -/
theorem violationsFold_lookup_notMem (relPath : String → String)
    (pi : PluginProjectInfo) :
    ∀ (fs : List ModelledFileInfo) (r : List (String × FileViolations))
      (k : String), k ∉ fs.map (fun g => relPath g.path) →
      lookupRecord (violationsFold relPath pi r fs) k = lookupRecord r k := by
  intro fs
  induction fs with
  | nil => intro r k _; rfl
  | cons g fs ih =>
    intro r k hk
    rw [List.map_cons, List.mem_cons] at hk
    push_neg at hk
    simp only [violationsFold]
    rw [ih _ k hk.2]
    by_cases hv : fileHasViolations pi g = true
    · rw [if_pos hv]
      exact lookupRecord_recordSet_ne _ _ _ _ hk.1
    · rw [if_neg hv]

/-- Two accumulator records that agree at a key keep agreeing at it under
one entry point's loop. -/
theorem violationsFold_lookup_congr (relPath : String → String)
    (pi : PluginProjectInfo) :
    ∀ (fs : List ModelledFileInfo)
      (r r' : List (String × FileViolations)) (k : String),
      lookupRecord r k = lookupRecord r' k →
      lookupRecord (violationsFold relPath pi r fs) k =
        lookupRecord (violationsFold relPath pi r' fs) k := by
  intro fs
  induction fs with
  | nil => intro r r' k h; exact h
  | cons g fs ih =>
    intro r r' k h
    simp only [violationsFold]
    apply ih
    by_cases hv : fileHasViolations pi g = true
    · rw [if_pos hv, if_pos hv]
      by_cases hk : k = relPath g.path
      · subst hk
        rw [lookupRecord_recordSet_self, lookupRecord_recordSet_self]
      · rw [lookupRecord_recordSet_ne _ _ _ _ hk,
          lookupRecord_recordSet_ne _ _ _ _ hk]
        exact h
    · rw [if_neg hv, if_neg hv]
      exact h

/-- With pairwise-distinct relative paths, the loop's final map binds each
file's path exactly when the file has a violation, to that file's own
report. -/
theorem violationsFold_lookup_nodup (relPath : String → String)
    (pi : PluginProjectInfo) :
    ∀ (fs : List ModelledFileInfo) (r : List (String × FileViolations))
      (f : ModelledFileInfo), f ∈ fs →
      (fs.map (fun g => relPath g.path)).Nodup →
      lookupRecord r (relPath f.path) = none →
      lookupRecord (violationsFold relPath pi r fs) (relPath f.path) =
        (if fileHasViolations pi f then
          some ⟨encapsulationKeys pi f, depViolationInfos pi f⟩
        else none) := by
  intro fs
  induction fs with
  | nil => intro r f hmem; exact absurd hmem (List.not_mem_nil f)
  | cons g fs ih =>
    intro r f hmem hnd hr
    rw [List.map_cons, List.nodup_cons] at hnd
    simp only [violationsFold]
    rcases List.mem_cons.mp hmem with hfg | hmem2
    · subst hfg
      rw [violationsFold_lookup_notMem relPath pi fs _ _ hnd.1]
      cases hv : fileHasViolations pi f with
      | true => simp only [hv, if_pos]; exact lookupRecord_recordSet_self _ _ _
      | false => simpa [hv] using hr
    · have hne : relPath f.path ≠ relPath g.path := by
        intro he
        exact hnd.1 (he ▸ List.mem_map_of_mem (fun g => relPath g.path) hmem2)
      apply ih _ f hmem2 hnd.2
      cases hv : fileHasViolations pi g with
      | true =>
        simp only [if_pos]
        rw [lookupRecord_recordSet_ne _ _ _ _ hne]
        exact hr
      | false => simpa using hr

/-- **C5.** For a traversal whose files have pairwise-distinct relative
paths, the violation record of `verifyForPlugin` binds a file's path iff
the file has at least one encapsulation or dependency-rule violation, and
the bound entry is exactly that file's report: the offending raw import
strings reported by the encapsulation checker (the keys of its record) and
its dependency-rule violations carrying `fromTag`, `toTags`, `rawImport` —
one per offending raw import statement, in source order, without
deduplication. -/
theorem verify_single_entry_report (relPath : String → String)
    (pi : PluginProjectInfo)
    (hnd : (pi.files.map (fun f => relPath f.path)).Nodup) :
    (∀ f ∈ pi.files,
      lookupRecord (verifyForPlugin relPath [pi]).violations (relPath f.path) =
        (if fileHasViolations pi f then
          some ⟨encapsulationKeys pi f, depViolationInfos pi f⟩
        else none)) ∧
    (∀ f, depViolationInfos pi f =
      f.rawImports.filterMap (fun imp =>
        (pi.depVerdict f.path imp).map
          (fun v => DependencyViolationInfo.mk v.1 v.2 imp))) ∧
    (∀ f, encapsulationKeys pi f =
      recordKeys (hasEncapsulationViolations pi f)) := by
  refine ⟨?_, ?_, fun f => rfl⟩
  · intro f hf
    rw [verifyForPlugin_violations]
    show lookupRecord (violationsFold relPath pi [] pi.files) (relPath f.path)
      = _
    exact violationsFold_lookup_nodup relPath pi pi.files [] f hf hnd rfl
  · intro f
    simp only [depViolationInfos, checkForDependencyRuleViolation,
      List.map_filterMap]
    congr 1
    funext imp
    cases pi.depVerdict f.path imp <;> rfl

/-- Witness for C5: the violating file's entry holds its encapsulation
keys and its per-statement dependency violations. -/
theorem verify_single_entry_report_witness :
    (piWitness.files.map (fun f => f.path)).Nodup ∧
    lookupRecord (verifyForPlugin (fun s => s) [piWitness]).violations
        "src/a.ts" =
      some ⟨["./b/internal"], [⟨"a", ["b"], "lodash"⟩]⟩ := by
  have h := (verify_single_entry_report (fun s => s) piWitness
    (by decide)).1 piWitnessFile (by decide)
  exact ⟨by decide, h⟩

/-- **C2 (amended).** When the two entry points' files have no relative
path in common, the combined run's report is non-interfering: each file's
recorded violations equal those of verifying its own entry point alone. -/
theorem verify_two_entries_disjoint (relPath : String → String)
    (e1 e2 : PluginProjectInfo)
    (hd : ∀ f1 ∈ e1.files, ∀ f2 ∈ e2.files,
      relPath f1.path ≠ relPath f2.path) :
    (∀ f ∈ e1.files,
      lookupRecord (verifyForPlugin relPath [e1, e2]).violations
          (relPath f.path) =
        lookupRecord (verifyForPlugin relPath [e1]).violations
          (relPath f.path)) ∧
    (∀ f ∈ e2.files,
      lookupRecord (verifyForPlugin relPath [e1, e2]).violations
          (relPath f.path) =
        lookupRecord (verifyForPlugin relPath [e2]).violations
          (relPath f.path)) := by
  constructor
  · intro f hf
    have hk : relPath f.path ∉ e2.files.map (fun g => relPath g.path) := by
      intro hmem
      rcases List.mem_map.mp hmem with ⟨g, hg, he⟩
      exact hd f hf g hg he.symm
    rw [verifyForPlugin_violations, verifyForPlugin_violations]
    show lookupRecord (violationsFold relPath e2
        (violationsFold relPath e1 [] e1.files) e2.files) (relPath f.path) =
      lookupRecord (violationsFold relPath e1 [] e1.files) (relPath f.path)
    exact violationsFold_lookup_notMem relPath e2 e2.files _ _ hk
  · intro f hf
    have hk1 : relPath f.path ∉ e1.files.map (fun g => relPath g.path) := by
      intro hmem
      rcases List.mem_map.mp hmem with ⟨g, hg, he⟩
      exact hd g hg f hf he
    rw [verifyForPlugin_violations, verifyForPlugin_violations]
    show lookupRecord (violationsFold relPath e2
        (violationsFold relPath e1 [] e1.files) e2.files) (relPath f.path) =
      lookupRecord (violationsFold relPath e2 [] e2.files) (relPath f.path)
    exact violationsFold_lookup_congr relPath e2 e2.files _ _ _
      (violationsFold_lookup_notMem relPath e1 e1.files _ _ hk1)

/-- Witness for the amended C2: two disjoint entry points, the combined
lookup equals the alone lookup. -/
theorem verify_two_entries_disjoint_witness :
    (∀ f1 ∈ disjE1.files, ∀ f2 ∈ disjE2.files, f1.path ≠ f2.path) ∧
    lookupRecord (verifyForPlugin (fun s => s) [disjE1, disjE2]).violations
        "a/x.ts" =
      lookupRecord (verifyForPlugin (fun s => s) [disjE1]).violations
        "a/x.ts" := by
  have h := (verify_two_entries_disjoint (fun s => s) disjE1 disjE2
    (by decide)).1 ⟨"a/x.ts", ["iA"]⟩ (by decide)
  exact ⟨by decide, h⟩

/-- **C2 (counterexample).** With two entry points reaching the same
relative path, the combined run records only the second entry point's
violations for that file — the first entry point's record is overwritten,
so it is not what verifying the first entry point alone records. -/
theorem verify_overlap_interference_cex :
    lookupRecord (verifyForPlugin (fun s => s) [cexE1, cexE2]).violations
        "src/shared.ts" = some ⟨["impB"], []⟩ ∧
    lookupRecord (verifyForPlugin (fun s => s) [cexE1]).violations
        "src/shared.ts" = some ⟨["impA"], []⟩ ∧
    FileViolations.mk ["impB"] [] ≠ FileViolations.mk ["impA"] [] :=
  ⟨rfl, rfl, by decide⟩

/-- Unfolding equation of `parseStringOrRecord` used by its proofs. -/
theorem parseStringOrRecord_eq (jp : String → Option Json) (input : String) :
    parseStringOrRecord jp input =
      if (input.trim.startsWith "\x7b" && input.trim.endsWith "\x7d") = true
      then
        match tryParseRecord jp input.trim with
        | some r => .record r
        | none =>
          match tryParseRecord jp (input.trim.replace "\x27" "\"") with
          | some r => .record r
          | none => .str input
      else .str input := rfl

/-- One parse attempt succeeds exactly on a JSON object all of whose values
are strings, and returns its fields as a string record (assuming the parse
function never returns an array for this input, which holds of `JSON.parse`
on the brace-leading strings it receives here). -/
theorem tryParseRecord_some_iff (jp : String → Option Json) (s : String)
    (hA : ∀ v, jp s = some v → v.isArr = false) (r : List (String × String)) :
    tryParseRecord jp s = some r ↔
      ∃ g, jp s = some (.obj g) ∧
        ((g.map (fun p => p.2)).all Json.isStr) = true ∧
        r = g.map (fun p => (p.1, p.2.strOf)) := by
  unfold tryParseRecord
  cases hjp : jp s with
  | none => simp
  | some v =>
    cases v with
    | null => simp [Json.isObjectNonNull]
    | bool b => simp [Json.isObjectNonNull]
    | num n => simp [Json.isObjectNonNull]
    | str s2 => simp [Json.isObjectNonNull]
    | arr es =>
      have hbad := hA _ hjp
      simp [Json.isArr] at hbad
    | obj g =>
      simp only [Json.isObjectNonNull, Json.values, Json.asStringRecord,
        Bool.true_and]
      by_cases hall : ((g.map (fun p => p.2)).all Json.isStr) = true
      · rw [if_pos hall]
        constructor
        · intro h
          injection h with h
          exact ⟨g, rfl, hall, h.symm⟩
        · rintro ⟨g2, hg, _, hr⟩
          injection hg with hg
          injection hg with hg
          subst hg
          rw [hr]
      · rw [if_neg hall]
        constructor
        · intro h
          exact Option.noConfusion h
        · rintro ⟨g2, hg, hall2, _⟩
          injection hg with hg
          injection hg with hg
          subst hg
          exact absurd hall2 hall

/-- **C9.** `parseStringOrRecord` is total and returns either the original
input string unchanged or a string-valued record; it returns a record only
when the trimmed input is brace-delimited and parses as JSON to a
string-valued object, either directly or after replacing every single
quote by a double quote; in all other cases (wrong delimiters, both parse
attempts failing or yielding arrays, non-objects or non-string values) it
returns the original input. -/
theorem parseStringOrRecord_spec (jp : String → Option Json) (input : String)
    (hA1 : ∀ v, jp input.trim = some v → v.isArr = false)
    (hA2 : ∀ v, jp (input.trim.replace "\x27" "\"") = some v →
      v.isArr = false) :
    (parseStringOrRecord jp input = .str input ∨
      ∃ fs, parseStringOrRecord jp input = .record fs) ∧
    (∀ fs, parseStringOrRecord jp input = .record fs →
      input.trim.startsWith "\x7b" = true ∧
      input.trim.endsWith "\x7d" = true ∧
      ((∃ g, jp input.trim = some (.obj g) ∧
          ((g.map (fun p => p.2)).all Json.isStr) = true ∧
          fs = g.map (fun p => (p.1, p.2.strOf))) ∨
        (∃ g, jp (input.trim.replace "\x27" "\"") = some (.obj g) ∧
          ((g.map (fun p => p.2)).all Json.isStr) = true ∧
          fs = g.map (fun p => (p.1, p.2.strOf))))) ∧
    (¬(input.trim.startsWith "\x7b" = true ∧
        input.trim.endsWith "\x7d" = true) →
      parseStringOrRecord jp input = .str input) ∧
    (tryParseRecord jp input.trim = none →
      tryParseRecord jp (input.trim.replace "\x27" "\"") = none →
      parseStringOrRecord jp input = .str input) := by
  by_cases hb : (input.trim.startsWith "\x7b" &&
      input.trim.endsWith "\x7d") = true
  · have hbs : input.trim.startsWith "\x7b" = true ∧
        input.trim.endsWith "\x7d" = true := by
      simpa using hb
    cases h1 : tryParseRecord jp input.trim with
    | some r =>
      have hv : parseStringOrRecord jp input = .record r := by
        rw [parseStringOrRecord_eq, if_pos hb, h1]
      refine ⟨Or.inr ⟨r, hv⟩, ?_, ?_, ?_⟩
      · intro fs hfs
        rw [hv] at hfs
        have hr : r = fs := by injection hfs
        subst hr
        exact ⟨hbs.1, hbs.2,
          Or.inl ((tryParseRecord_some_iff jp input.trim hA1 r).mp h1)⟩
      · intro hc
        exact absurd hbs hc
      · intro hd1 _
        exact Option.noConfusion hd1
    | none =>
      cases h2 : tryParseRecord jp (input.trim.replace "\x27" "\"") with
      | some r =>
        have hv : parseStringOrRecord jp input = .record r := by
          rw [parseStringOrRecord_eq, if_pos hb, h1, h2]
        refine ⟨Or.inr ⟨r, hv⟩, ?_, ?_, ?_⟩
        · intro fs hfs
          rw [hv] at hfs
          have hr : r = fs := by injection hfs
          subst hr
          exact ⟨hbs.1, hbs.2, Or.inr
            ((tryParseRecord_some_iff jp _ hA2 r).mp h2)⟩
        · intro hc
          exact absurd hbs hc
        · intro _ hd2
          exact Option.noConfusion hd2
      | none =>
        have hv : parseStringOrRecord jp input = .str input := by
          rw [parseStringOrRecord_eq, if_pos hb, h1, h2]
        exact ⟨Or.inl hv,
          fun fs hfs => StringOrRecord.noConfusion (hv.symm.trans hfs),
          fun _ => hv, fun _ _ => hv⟩
  · have hv : parseStringOrRecord jp input = .str input := by
      rw [parseStringOrRecord_eq, if_neg hb]
    exact ⟨Or.inl hv,
      fun fs hfs => StringOrRecord.noConfusion (hv.symm.trans hfs),
      fun _ => hv, fun _ _ => hv⟩

/-- Witness for C9: with a parse function that always throws, a plain path
string is returned unchanged. -/
theorem parseStringOrRecord_spec_witness :
    (∀ v : Json, jpNone "src/main.ts".trim = some v → v.isArr = false) ∧
    parseStringOrRecord jpNone "src/main.ts" = .str "src/main.ts" := by
  have h := parseStringOrRecord_spec jpNone "src/main.ts"
    (fun _ hv => Option.noConfusion hv) (fun _ hv => Option.noConfusion hv)
  refine ⟨?_, ?_⟩
  · intro v hv
    exact Option.noConfusion hv
  · exact h.2.2.2 rfl rfl

end Sheriff
